import Mathlib

/-!
Verification development for the Lesta-TFIDF corpus store
(`src/database.py`, `src/nlp.py`).

The three SQLite tables (`documents`, `lemmas`, `documents_lemmas`) are
modelled as lists of row structures; every `Corpus` method of
`database.py` becomes a function on that state.  Modelling notes, each
justified against the actual runtime behaviour of the source:

* Row ids (`doc_id`, `lemma_id`): the schema declares
  `Integer, primary_key=True, autoincrement=True`, and SQLAlchemy's
  SQLite dialect emits a plain `INTEGER ... PRIMARY KEY` without the
  `AUTOINCREMENT` keyword (that keyword requires the
  `sqlite_autoincrement` table option, which the source does not set).
  SQLite then assigns "one more than the largest rowid currently in
  use" (1 for an empty table), so an id freed by deleting the largest
  row is handed out again.  `nextId` models exactly that rule.

* Foreign keys: `documents_lemmas` declares `ondelete="CASCADE"`, but
  SQLite only enforces foreign-key clauses on connections that issued
  `PRAGMA foreign_keys=ON`.  Neither `database.py` nor any other file
  of the repository installs that pragma (SQLAlchemy does not emit it
  by itself), so the CASCADE clause is inert at runtime:
  `del_document` deletes only the `documents` row and leaves the
  document's `documents_lemmas` rows orphaned.  The model reproduces
  this.

* Unordered SELECTs: `lemmas_tf` / `lemmas_count` read the rows of one
  document with `WHERE doc_id = ?` and no ORDER BY.  The composite
  primary key `(doc_id, lemma_id)` gives SQLite an index
  (`sqlite_autoindex`) which the planner uses for this equality
  lookup, returning the rows in ascending `lemma_id` order; the model
  sorts the filtered rows by `lemma_id` accordingly.

* Python `set` iteration order (used for `unique_lemmas` in
  `add_document`) is unspecified; the model fixes it to
  first-occurrence order (`List.dedup`).  No claim depends on this
  choice: all reads are either key-based maps or index-ordered.

* `sorted(data, key=..., reverse=True)` is Python's stable sort; it is
  modelled by `List.insertionSort` with the reflexive descending
  comparison, which is likewise stable.

* Errors (`ValueError`, `KeyError`, the `sqlalchemy` errors raised for
  an empty executemany parameter list or a primary-key violation, and
  the `RuntimeError` of `lemma_tfidf_map`) become the `DBError`
  enumeration; a transaction that raises is rolled back, which the
  pure model renders by returning `Except.error` and keeping the old
  state.

* Floats are modelled as exact numbers: stored term frequencies as
  `ℚ` (they are quotients of integers), computed idf/tf-idf scores as
  `ℝ` (they involve `math.log`, i.e. `Real.log`).
-/

namespace LestaTfidf

/-- Row of the `documents` table: `doc_id`, `xxhash64`, `compressed_text`. -/
structure DocRow where
  doc_id : ℕ
  xxhash64 : ℕ
  compressed_text : List ℕ
deriving DecidableEq

/-- Row of the `lemmas` table: `lemma_id` and the unique lemma string
(column `lemma`; `lemma` is a Lean keyword, hence `lemma_text`). -/
structure LemmaRow where
  lemma_id : ℕ
  lemma_text : String
deriving DecidableEq

/-- Row of the `documents_lemmas` bridge table. -/
structure DLRow where
  doc_id : ℕ
  lemma_id : ℕ
  lemma_count : ℕ
  lemma_tf : ℚ
deriving DecidableEq

/-- The three record sets owned by the store (`metadata` of `database.py`). -/
structure Corpus where
  documents : List DocRow
  lemmas : List LemmaRow
  documents_lemmas : List DLRow
deriving DecidableEq

/-- The empty database, as created by `setup_database(use_existing=False)`. -/
def corpus0 : Corpus := ⟨[], [], []⟩

/-- Mutable pipeline carrier of `nlp.py`.  `text_input` is the only
field required at construction; the remaining fields start as `None`.
(`clear()` also resets `text_input`, but no modelled operation reads a
cleared context, so `text_input` is kept as a plain `String`.) -/
structure NlpDocContext where
  text_input : String
  xxhash64 : Option ℕ := none
  compressed_text : Option (List ℕ) := none
  tokens_lemmatized : Option (List String) := none
  lemmas_count_map : Option (List (String × ℕ)) := none
  lemmas_tf_map : Option (List (String × ℚ)) := none
deriving DecidableEq

/-- `NlpDocContext.is_full`: every optional field is set (the source
iterates the annotations and tests `is None`). -/
def NlpDocContext.is_full (c : NlpDocContext) : Bool :=
  c.xxhash64.isSome && c.compressed_text.isSome && c.tokens_lemmatized.isSome &&
    c.lemmas_count_map.isSome && c.lemmas_tf_map.isSome

/-- Python-dict lookup on an association list (first binding wins;
dict keys are unique in every state the program builds). -/
def alookup {κ α : Type} [BEq κ] (m : List (κ × α)) (k : κ) : Option α :=
  (m.find? (fun p => p.1 == k)).map (·.2)

/-- Errors surfaced by the modelled operations. -/
inductive DBError where
  /-- `ValueError` of `add_document` for a context that is not full. -/
  | valueError
  /-- `KeyError` from `nlp.lemmas_tf_map[curr_lemma]` inside the ingest transaction. -/
  | keyError
  /-- SQLAlchemy 2.x rejects `execute(insert(...), [])` with an empty parameter list. -/
  | emptyInsert
  /-- `IntegrityError`: primary-key violation on `documents_lemmas`. -/
  | integrityError
  /-- `RuntimeError` of `lemma_tfidf_map` for a document without stat rows. -/
  | runtimeError
deriving DecidableEq

/-- SQLite rowid assignment for a table without the `AUTOINCREMENT`
keyword: one more than the largest id in use, 1 when the table is empty. -/
def nextId (ids : List ℕ) : ℕ := ids.foldr max 0 + 1

/-- Step 2 of `add_document`: `INSERT OR IGNORE` of each distinct lemma
string; a lemma already present keeps its row, a new one gets the next
rowid of the `lemmas` table. -/
def upsertLemmas (ls : List LemmaRow) (ws : List String) : List LemmaRow :=
  ws.foldl
    (fun acc w =>
      if acc.any (fun r => r.lemma_text == w) then acc
      else acc ++ [⟨nextId (acc.map (·.lemma_id)), w⟩])
    ls

/-- `Corpus.add_document` (`database.py` lines 73-106): check
`is_full`, then in one transaction insert the document row, upsert the
lemmas, and insert one `documents_lemmas` row per distinct lemma of
the count map.  Any error rolls the whole transaction back, so the
error branches return no new state. -/
def add_document (S : Corpus) (nlp : NlpDocContext) : Except DBError (Corpus × ℕ) :=
  if nlp.is_full = false then .error .valueError
  else
    match nlp.xxhash64, nlp.compressed_text, nlp.lemmas_count_map, nlp.lemmas_tf_map with
    | some h, some ct, some cm, some tfm =>
      let doc_id := nextId (S.documents.map (·.doc_id))
      let uniq := (cm.map Prod.fst).dedup
      let lemmas2 := upsertLemmas S.lemmas uniq
      -- step 3: every lemma of `uniq` is present after the upsert, so the
      -- fetched id map is total on `uniq`; `getD 0` is never the default.
      let lemmaIdOf := fun w => ((lemmas2.find? (fun r => r.lemma_text == w)).map (·.lemma_id)).getD 0
      if uniq.all (fun w => (alookup tfm w).isSome) then
        let rows := uniq.map (fun w =>
          DLRow.mk doc_id (lemmaIdOf w) ((alookup cm w).getD 0) ((alookup tfm w).getD 0))
        if rows.isEmpty then .error .emptyInsert
        else if rows.any (fun r => S.documents_lemmas.any
            (fun q => q.doc_id == r.doc_id && q.lemma_id == r.lemma_id)) then
          .error .integrityError
        else
          .ok ({ documents := S.documents ++ [⟨doc_id, h, ct⟩]
                 lemmas := lemmas2
                 documents_lemmas := S.documents_lemmas ++ rows }, doc_id)
      else .error .keyError
    | _, _, _, _ => .error .valueError  -- unreachable: `is_full` forces all fields set

/-- `Corpus.del_document`: `DELETE FROM documents WHERE doc_id = ?`.
Foreign keys are never enabled on the SQLite connection, so the
declared CASCADE does not fire: only the `documents` row disappears. -/
def del_document (S : Corpus) (doc_id : ℕ) : Corpus :=
  { S with documents := S.documents.filter (fun r => r.doc_id != doc_id) }

/-- `SELECT count() FROM documents` (the corpus size used by the TF-IDF queries). -/
def corpus_size (S : Corpus) : ℕ := S.documents.length

/-- Relation ordering `documents_lemmas` rows by `lemma_id` (the
composite-primary-key index order in which SQLite returns the rows of
one document). -/
def rLem (a b : DLRow) : Prop := a.lemma_id ≤ b.lemma_id

instance : DecidableRel rLem := fun a b => Nat.decLe a.lemma_id b.lemma_id

instance : IsTotal DLRow rLem := ⟨fun a b => Nat.le_total a.lemma_id b.lemma_id⟩

instance : IsTrans DLRow rLem := ⟨fun _ _ _ => Nat.le_trans⟩

/-- Rows of one document, in the order the unordered
`WHERE doc_id = ?` SELECT returns them (ascending `lemma_id`). -/
def docRows (S : Corpus) (d : ℕ) : List DLRow :=
  List.insertionSort rLem (S.documents_lemmas.filter (fun r => r.doc_id == d))

/-- `Corpus.lemmas_count`: `{lemma_id: lemma_count}` for one document. -/
def lemmas_count (S : Corpus) (d : ℕ) : List (ℕ × ℕ) :=
  (docRows S d).map (fun r => (r.lemma_id, r.lemma_count))

/-- `Corpus.lemmas_tf`: `{lemma_id: lemma_tf}` for one document. -/
def lemmas_tf (S : Corpus) (d : ℕ) : List (ℕ × ℚ) :=
  (docRows S d).map (fun r => (r.lemma_id, r.lemma_tf))

/-- Document frequency of one lemma: number of distinct `doc_id`s among
its `documents_lemmas` rows (the grouped
`count(distinct doc_id)` of `lemmas_id_doccount_map`). -/
def df (S : Corpus) (l : ℕ) : ℕ :=
  ((S.documents_lemmas.filter (fun r => r.lemma_id == l)).map (·.doc_id)).dedup.length

/-- `Corpus.lemmas_id_doccount_map`: one `(lemma_id, doc_count)` entry
per lemma occurring in `documents_lemmas`. -/
def lemmas_id_doccount_map (S : Corpus) : List (ℕ × ℕ) :=
  ((S.documents_lemmas.map (·.lemma_id)).dedup).map (fun l => (l, df S l))

/-- `Corpus.lemma_tfidf_map` (`database.py` lines 162-186).  Empty
corpus: empty map.  No stat rows: `RuntimeError`.  Otherwise one
`tf * log(N / df)` score per lemma, skipping a lemma whose document
count resolves to 0 (`.get(lemma_id) or 0`). -/
noncomputable def lemma_tfidf_map (S : Corpus) (d : ℕ) : Except DBError (List (ℕ × ℝ)) :=
  if corpus_size S = 0 then .ok []
  else
    let tf_map := lemmas_tf S d
    if tf_map.isEmpty then .error .runtimeError
    else
      let dfm := lemmas_id_doccount_map S
      .ok (tf_map.filterMap (fun p =>
        let doccount := (alookup dfm p.1).getD 0
        if doccount = 0 then none
        else some (p.1, (p.2 : ℝ) * Real.log ((corpus_size S : ℝ) / (doccount : ℝ)))))

/-- One output record of `Corpus.document_lemmas_info`.  The source
builds a dict keyed by the iteration variable `lemma_id`; the record
keeps that key alongside the five emitted fields. -/
structure LemmaInfo where
  lemma_id : ℕ
  word : String
  count : ℕ
  tf : ℚ
  idf : ℝ
  tfidf : ℝ

noncomputable instance : Inhabited LemmaInfo := ⟨⟨0, "", 0, 0, 0, 0⟩⟩

/-- Assembly of one record of `document_lemmas_info` (lines 216-229):
each field is a `.get` with the source's default, `idf` is recomputed
from the doc-count map with default 1. -/
noncomputable def mkInfo (N : ℕ) (cm : List (ℕ × ℕ)) (tfm : List (ℕ × ℚ))
    (dfm : List (ℕ × ℕ)) (tfidfm : List (ℕ × ℝ)) (lems : List LemmaRow) (l : ℕ) : LemmaInfo :=
  let dc := (alookup dfm l).getD 1
  { lemma_id := l
    word := ((lems.find? (fun r => r.lemma_id == l)).map (·.lemma_text)).getD
      ("[id=" ++ toString l ++ "]")
    count := (alookup cm l).getD 0
    tf := (alookup tfm l).getD 0
    idf := if dc ≠ 0 then Real.log ((N : ℝ) / (dc : ℝ)) else 0
    tfidf := (alookup tfidfm l).getD 0 }

/-- Comparison used by the final `sorted(data, key=tfidf, reverse=True)`. -/
def rTD (a b : LemmaInfo) : Prop := b.tfidf ≤ a.tfidf

noncomputable instance : DecidableRel rTD := fun a b => Real.decidableLE b.tfidf a.tfidf

instance : IsTotal LemmaInfo rTD := ⟨fun a b => le_total b.tfidf a.tfidf⟩

instance : IsTrans LemmaInfo rTD := ⟨fun _ _ _ hab hbc => le_trans hbc hab⟩

/-- `Corpus.document_lemmas_info` (`database.py` lines 189-232). -/
noncomputable def document_lemmas_info (S : Corpus) (d : ℕ) : Except DBError (List LemmaInfo) :=
  if corpus_size S = 0 then .ok []
  else
    match lemma_tfidf_map S d with
    | .error e => .error e
    | .ok tfidfm =>
      let cm := lemmas_count S d
      .ok (List.insertionSort rTD
        ((cm.map Prod.fst).map
          (mkInfo (corpus_size S) cm (lemmas_tf S d) (lemmas_id_doccount_map S) tfidfm S.lemmas)))

/-- `hash_original_text` (`nlp.py` lines 67-75).  `xxh` stands for the
external `xxhash.xxh64(text.encode()).intdigest()`; the function masks
it to 63 bits, stores it in the context, and returns it through
Python's `or None`. -/
def hash_original_text (xxh : String → ℕ) (nlp : NlpDocContext) : NlpDocContext × Option ℕ :=
  let h := Nat.land (xxh nlp.text_input) (2 ^ 63 - 1)
  ({ nlp with xxhash64 := some h }, if h = 0 then none else some h)

/-- `compute_count_tf` (`nlp.py` lines 100-108): `Counter` of the
lemmatized tokens (insertion order = first occurrence) and the term
frequencies `count / total`. -/
def compute_count_tf (tokens : List String) : List (String × ℕ) × List (String × ℚ) :=
  let cm := tokens.dedup.map (fun w => (w, tokens.count w))
  let total : ℕ := (cm.map Prod.snd).sum
  (cm, cm.map (fun p => (p.1, (p.2 : ℚ) / (total : ℚ))))

/-- Fully populated pipeline context for one document, as built by the
upload path of `streamlit_app.py` (hash, tokenize, `compute_count_tf`,
compress, then `add_document`).  The fingerprint is a parameter: the
inputs used below stand for distinct texts with distinct fingerprints. -/
def mkCtx (h : ℕ) (tokens : List String) : NlpDocContext :=
  let maps := compute_count_tf tokens
  { text_input := String.join tokens
    xxhash64 := some h
    compressed_text := some []
    tokens_lemmatized := some tokens
    lemmas_count_map := some maps.1
    lemmas_tf_map := some maps.2 }

/-- One user-level operation against the store. -/
inductive Op where
  | ingest (h : ℕ) (tokens : List String)
  | del (doc_id : ℕ)
deriving DecidableEq

/-- Effect of one operation on the state; a failed ingest rolls back
and leaves the state unchanged. -/
def step (S : Corpus) : Op → Corpus
  | .ingest h toks =>
    match add_document S (mkCtx h toks) with
    | .ok p => p.1
    | .error _ => S
  | .del d => del_document S d

/-- Run a sequence of operations from a starting state. -/
def runOps (S : Corpus) (ops : List Op) : Corpus := ops.foldl step S

/-- The `doc_id`s returned by the successful ingests of a run, in order. -/
def assignedIds (S : Corpus) (ops : List Op) : List ℕ :=
  (ops.foldl
    (fun (acc : Corpus × List ℕ) op =>
      match op with
      | Op.ingest h toks =>
        match add_document acc.1 (mkCtx h toks) with
        | .ok p => (p.1, acc.2 ++ [p.2])
        | .error _ => acc
      | Op.del d => (del_document acc.1 d, acc.2))
    (S, [])).2

/-- `True` exactly on the error outcome of an ingest. -/
def isError : Except DBError (Corpus × ℕ) → Bool
  | .error _ => true
  | .ok _ => false

/-- State after an ingest attempt: the new state on success, the old
one on a rolled-back failure. -/
def afterAdd (S : Corpus) (nlp : NlpDocContext) : Corpus :=
  match add_document S nlp with
  | .ok p => p.1
  | .error _ => S

/-- `doc_id` returned by an ingest attempt, if it succeeded. -/
def addedId (S : Corpus) (nlp : NlpDocContext) : Option ℕ :=
  (add_document S nlp).toOption.map (·.2)

/-- Primary-key well-formedness of the bridge table: no two rows share
`(doc_id, lemma_id)` — the constraint SQLite itself enforces. -/
def WFpk (S : Corpus) : Prop :=
  S.documents_lemmas.Pairwise (fun r q => r.doc_id = q.doc_id → r.lemma_id ≠ q.lemma_id)

/-- Concrete one-document state used by witnesses: document 1 with
fingerprint 7, vocabulary `{1 ↦ "a"}`, one stat row (count 2, tf 1). -/
def S1 : Corpus := ⟨[⟨1, 7, []⟩], [⟨1, "a"⟩], [⟨1, 1, 2, 1⟩]⟩

/-- The score list `lemma_tfidf_map` produces on `S1`, document 1. -/
noncomputable def T1 : List (ℕ × ℝ) := ((lemma_tfidf_map S1 1).toOption).getD []

/-- The report `document_lemmas_info` produces on `S1`, document 1. -/
noncomputable def R1 : List LemmaInfo := ((document_lemmas_info S1 1).toOption).getD []

instance (S : Corpus) : Decidable (WFpk S) := List.instDecidablePairwise _

/-- The operation sequence exhibiting orphaned stat rows plus doc-id
reuse: ingest "a", ingest "b", delete document 2, ingest "c". -/
def ops3 : List Op := [.ingest 1 ["a"], .ingest 2 ["b"], .del 2, .ingest 3 ["c"]]

/-- The one-document state reached by ingesting the single token "a". -/
def S1one : Corpus := runOps corpus0 [.ingest 1 ["a"]]

/-- Output order required of the report: strictly descending `tfidf`,
ties strictly ascending `lemma_id`. -/
def ordC5 (a b : LemmaInfo) : Prop :=
  b.tfidf < a.tfidf ∨ (b.tfidf = a.tfidf ∧ a.lemma_id < b.lemma_id)

section Helpers

-- Association-list lookups over a keys-to-value map built by `List.map`.
theorem alookup_map_self {α : Type} (ks : List ℕ) (f : ℕ → α) (l : ℕ) (h : l ∈ ks) :
    alookup (ks.map (fun k => (k, f k))) l = some (f l) := by
  induction ks with
  | nil => cases h
  | cons a ks ih =>
    by_cases ha : a = l
    · subst ha
      simp [alookup, List.find?_cons_of_pos]
    · rcases List.mem_cons.mp h with rfl | h2
      · exact absurd rfl ha
      · simp only [List.map_cons, alookup]
        rw [List.find?_cons_of_neg _ (by simpa using ha)]
        exact ih h2

theorem alookup_map_none {α : Type} (ks : List ℕ) (f : ℕ → α) (l : ℕ) (h : l ∉ ks) :
    alookup (ks.map (fun k => (k, f k))) l = none := by
  induction ks with
  | nil => rfl
  | cons a ks ih =>
    simp only [List.mem_cons, not_or] at h
    simp only [List.map_cons, alookup]
    rw [List.find?_cons_of_neg _ (by simpa using Ne.symm h.1)]
    exact ih h.2

-- Positivity of the document frequency is occurrence in the bridge table.
theorem df_pos_iff (S : Corpus) (l : ℕ) :
    0 < df S l ↔ l ∈ S.documents_lemmas.map (·.lemma_id) := by
  unfold df
  rw [List.length_pos]
  constructor
  · intro h
    obtain ⟨x, hx⟩ := List.exists_mem_of_ne_nil _ h
    have hx2 := List.mem_dedup.mp hx
    obtain ⟨r, hr, _⟩ := List.mem_map.mp hx2
    have hr2 := List.mem_filter.mp hr
    exact List.mem_map.mpr ⟨r, hr2.1, by simpa using hr2.2⟩
  · intro h
    obtain ⟨r, hr, hrl⟩ := List.mem_map.mp h
    have hrf : r ∈ S.documents_lemmas.filter (fun q => q.lemma_id == l) :=
      List.mem_filter.mpr ⟨hr, by simp [hrl]⟩
    exact List.ne_nil_of_mem (List.mem_dedup.mpr (List.mem_map.mpr ⟨r, hrf, rfl⟩))

-- The grouped doc-count map binds exactly the lemmas with positive df.
theorem alookup_doccount (S : Corpus) (l : ℕ) :
    alookup (lemmas_id_doccount_map S) l = if df S l = 0 then none else some (df S l) := by
  unfold lemmas_id_doccount_map
  by_cases h : l ∈ (S.documents_lemmas.map (·.lemma_id)).dedup
  · rw [alookup_map_self _ _ _ h, if_neg]
    have := (df_pos_iff S l).mpr (List.mem_dedup.mp h)
    omega
  · rw [alookup_map_none _ _ _ h, if_pos]
    by_contra hne
    exact h (List.mem_dedup.mpr ((df_pos_iff S l).mp (by omega)))

theorem getD_doccount (S : Corpus) (l : ℕ) :
    (alookup (lemmas_id_doccount_map S) l).getD 0 = df S l := by
  rw [alookup_doccount]
  split
  · simp [*]
  · rfl

-- Membership in the per-document row list.
theorem mem_docRows (S : Corpus) (d : ℕ) (r : DLRow) :
    r ∈ docRows S d ↔ r ∈ S.documents_lemmas ∧ r.doc_id = d := by
  unfold docRows
  rw [(List.perm_insertionSort rLem _).mem_iff, List.mem_filter]
  simp

theorem df_pos_of_mem_keys (S : Corpus) (d : ℕ) (l : ℕ)
    (h : l ∈ (docRows S d).map (·.lemma_id)) : 0 < df S l := by
  obtain ⟨r, hr, hrl⟩ := List.mem_map.mp h
  exact (df_pos_iff S l).mpr
    (List.mem_map.mpr ⟨r, ((mem_docRows S d r).mp hr).1, hrl⟩)

theorem df_pos_of_mem_lemmas_tf (S : Corpus) (d : ℕ) (l : ℕ) (t : ℚ)
    (h : (l, t) ∈ lemmas_tf S d) : 0 < df S l := by
  obtain ⟨r, hr, hrl⟩ := List.mem_map.mp h
  exact df_pos_of_mem_keys S d l
    (List.mem_map.mpr ⟨r, hr, by simpa using congrArg Prod.fst hrl⟩)

-- Largest element bound for the rowid rule.
theorem le_foldr_max (l : List ℕ) (x : ℕ) (h : x ∈ l) : x ≤ l.foldr max 0 := by
  induction l with
  | nil => cases h
  | cons a l ih =>
    rcases List.mem_cons.mp h with rfl | h2
    · exact le_max_left _ _
    · exact le_trans (ih h2) (le_max_right _ _)

-- Masking with an all-ones pattern is reduction mod a power of two.
theorem land_two_pow_sub_one (x n : ℕ) : Nat.land x (2 ^ n - 1) = x % 2 ^ n := by
  apply Nat.eq_of_testBit_eq
  intro i
  have h1 : Nat.land x (2 ^ n - 1) = x &&& (2 ^ n - 1) := rfl
  rw [h1, Nat.testBit_land, Nat.testBit_two_pow_sub_one, Nat.testBit_mod_two_pow,
    Bool.and_comm]

-- Stability of the final sort: inserting an element whose key is below
-- every key present preserves the overall report order.
theorem ordC5_orderedInsert (a : LemmaInfo) :
    ∀ xs : List LemmaInfo, xs.Sorted rTD → xs.Pairwise ordC5 →
      (∀ y ∈ xs, a.lemma_id < y.lemma_id) →
      (List.orderedInsert rTD a xs).Pairwise ordC5
  | [], _, _, _ => by simp
  | y :: ys, hs, hp, hlt => by
    rw [List.orderedInsert]
    split
    · -- `a` goes in front: every later element has tfidf at most `a`'s.
      rename_i hle
      refine List.pairwise_cons.mpr ⟨?_, hp⟩
      intro z hz
      have hzle : z.tfidf ≤ a.tfidf := by
        rcases List.mem_cons.mp hz with rfl | hz2
        · exact hle
        · exact le_trans (List.rel_of_sorted_cons hs z hz2) hle
      rcases lt_or_eq_of_le hzle with hlt2 | heq
      · exact Or.inl hlt2
      · exact Or.inr ⟨heq, hlt z hz⟩
    · -- `a` goes past `y`, whose tfidf is strictly larger.
      rename_i hgt
      have hperm := List.perm_orderedInsert rTD a ys
      refine List.pairwise_cons.mpr ⟨?_, ?_⟩
      · intro z hz
        rcases List.mem_cons.mp (hperm.mem_iff.mp hz) with rfl | hz2
        · exact Or.inl (not_le.mp hgt)
        · exact (List.pairwise_cons.mp hp).1 z hz2
      · exact ordC5_orderedInsert a ys ((List.sorted_cons.mp hs).2)
          (List.pairwise_cons.mp hp).2
          (fun z hz => hlt z (List.mem_cons_of_mem y hz))

theorem ordC5_insertionSort :
    ∀ l : List LemmaInfo, l.Pairwise (fun a b => a.lemma_id < b.lemma_id) →
      (List.insertionSort rTD l).Pairwise ordC5
  | [], _ => List.Pairwise.nil
  | a :: l, h => by
    rw [List.insertionSort]
    obtain ⟨ha, hl⟩ := List.pairwise_cons.mp h
    exact ordC5_orderedInsert a _ (List.sorted_insertionSort rTD _)
      (ordC5_insertionSort l hl)
      (fun y hy => ha y ((List.perm_insertionSort rTD l).mem_iff.mp hy))

end Helpers

/-- Context whose count map has keys `{a}` but whose tf map has keys
`{a, b}` — the key sets differ, every field is set. -/
def nlpMismatch : NlpDocContext :=
  { text_input := "t"
    xxhash64 := some 1
    compressed_text := some []
    tokens_lemmatized := some ["a"]
    lemmas_count_map := some [("a", 1)]
    lemmas_tf_map := some [("a", (1 : ℚ)/2), ("b", (1 : ℚ)/2)] }

/-- Context with all fields set but both per-lemma maps empty. -/
def nlpEmptyMaps : NlpDocContext :=
  { text_input := ""
    xxhash64 := some 1
    compressed_text := some []
    tokens_lemmatized := some []
    lemmas_count_map := some []
    lemmas_tf_map := some [] }

/-- C2, counterexample: a context whose two maps do not share the same
key set (tf map has the extra key "b") passes `is_full`, is ingested
without any error, and the document is stored — contradicting the
claim that `add_document` must fail and store nothing whenever the key
sets differ. -/
theorem ingest_keyset_mismatch_accepted :
    nlpMismatch.is_full = true ∧
    nlpMismatch.lemmas_count_map = some [("a", 1)] ∧
    nlpMismatch.lemmas_tf_map = some [("a", (1 : ℚ)/2), ("b", (1 : ℚ)/2)] ∧
    isError (add_document corpus0 nlpMismatch) = false ∧
    (afterAdd corpus0 nlpMismatch).documents.length = 1 :=
  ⟨rfl, rfl, rfl, by decide, by decide⟩

/-- C2, amended: `add_document` raises `ValueError` when the context is
not full; and when the count map is empty, or some lemma of the count
map is missing from the tf map, the transaction fails with an error
(and, the model returning no new state, nothing is stored).  A tf map
whose key set strictly contains the count map's keys is accepted. -/
theorem add_document_failure_modes (S : Corpus) (nlp : NlpDocContext)
    (cm : List (String × ℕ)) (tfm : List (String × ℚ))
    (hcm : nlp.lemmas_count_map = some cm) (htfm : nlp.lemmas_tf_map = some tfm) :
    (nlp.is_full = false → add_document S nlp = .error .valueError) ∧
    ((cm = [] ∨ ∃ w ∈ cm.map Prod.fst, alookup tfm w = none) →
      isError (add_document S nlp) = true) := by
  constructor
  · intro h
    simp [add_document, h]
  · intro hbad
    by_cases hfull : nlp.is_full = false
    · simp [add_document, hfull, isError]
    · have hfull2 : nlp.is_full = true := by
        cases h : nlp.is_full
        · exact absurd h hfull
        · rfl
      simp only [NlpDocContext.is_full, Bool.and_eq_true, Option.isSome_iff_exists] at hfull2
      obtain ⟨⟨⟨⟨⟨h64, hh64⟩, ⟨hct, hhct⟩⟩, -⟩, -⟩, -⟩ := hfull2
      rcases hbad with hnil | ⟨w, hw, hwnone⟩
      · subst hnil
        simp [add_document, hfull, hh64, hhct, hcm, htfm, isError]
      · have hall : ((cm.map Prod.fst).dedup.all (fun v => (alookup tfm v).isSome)) = false := by
          by_contra hc
          have hc2 : ((cm.map Prod.fst).dedup.all (fun v => (alookup tfm v).isSome)) = true := by
            cases h : (cm.map Prod.fst).dedup.all (fun v => (alookup tfm v).isSome)
            · exact absurd h hc
            · rfl
          have := List.all_eq_true.mp hc2 w (List.mem_dedup.mpr hw)
          rw [hwnone] at this
          simp at this
        simp [add_document, hfull, hh64, hhct, hcm, htfm, hall, isError]

/-- C2, witness for the amended theorem: the context with empty maps is
rejected with an error. -/
theorem add_document_failure_modes_witness :
    nlpEmptyMaps.lemmas_count_map = some [] ∧
    isError (add_document corpus0 nlpEmptyMaps) = true :=
  ⟨rfl, (add_document_failure_modes corpus0 nlpEmptyMaps [] [] rfl rfl).2 (Or.inl rfl)⟩

/-- C3: evaluation of the failing run.  Ingest "a" (doc 1), ingest "b"
(doc 2), delete doc 2 (its stat rows survive, foreign keys being
unenforced), ingest "c" — which is assigned the reused `doc_id` 2.
The stat rows of document 2 now sum to 2, not 1: the claimed invariant
fails after this ingest/delete sequence. -/
theorem tf_sum_violated_after_delete_reuse :
    assignedIds corpus0 ops3 = [1, 2, 2] ∧
    (runOps corpus0 ops3).documents.map (·.doc_id) = [1, 2] ∧
    ((lemmas_tf (runOps corpus0 ops3) 2).map Prod.snd).sum = 2 := by
  refine ⟨by decide, by decide, ?_⟩
  rw [show lemmas_tf (runOps corpus0 ops3) 2
      = [(2, ((1 : ℕ) : ℚ)/((1 : ℕ) : ℚ)), (3, ((1 : ℕ) : ℚ)/((1 : ℕ) : ℚ))] from rfl]
  norm_num

/-- C6: with a non-empty corpus and a document (here: a non-existent
id) having no stat rows, `lemma_tfidf_map` raises the internal
`RuntimeError` instead of returning an empty map. -/
theorem tfidf_no_rows_error (S : Corpus) (d : ℕ)
    (h1 : 0 < corpus_size S) (h2 : lemmas_tf S d = []) :
    lemma_tfidf_map S d = .error .runtimeError := by
  have hne : corpus_size S ≠ 0 := Nat.pos_iff_ne_zero.mp h1
  simp [lemma_tfidf_map, hne, h2]

/-- C6, witness: `S1` holds one document; document 99 has no rows. -/
theorem tfidf_no_rows_error_witness :
    0 < corpus_size S1 ∧ lemmas_tf S1 99 = [] ∧
    lemma_tfidf_map S1 99 = .error .runtimeError :=
  ⟨by decide, by decide, tfidf_no_rows_error S1 99 (by decide) (by decide)⟩

/-- C7: evaluation at the failing input.  Deleting the only document
removes its `documents` row (corpus size 1 → 0) and deleting a
non-existent id is a no-op, but the document's `documents_lemmas` rows
are NOT removed — the CASCADE clause is never enforced because the
SQLite connection runs with foreign keys off.  This contradicts both
the claim and `del_document`'s own docstring. -/
theorem delete_keeps_stat_rows :
    corpus_size S1one = 1 ∧
    (del_document S1one 1).documents = [] ∧
    (del_document S1one 1).documents_lemmas = S1one.documents_lemmas ∧
    S1one.documents_lemmas ≠ [] ∧
    del_document S1one 5 = S1one := by
  refine ⟨by decide, by decide, rfl, by decide, ?_⟩
  have h : S1one.documents.filter (fun r => r.doc_id != 5) = S1one.documents := by decide
  simp [del_document, h]

/-- C8, counterexample: doc_id 2 is assigned to the second ingest,
freed by the delete, and assigned again to the fourth operation's new
document — rowids are reused after deletion of the largest row,
contradicting "monotonically increasing, never reused". -/
theorem doc_id_reused_after_delete :
    assignedIds corpus0 [.ingest 1 ["a"], .ingest 2 ["b"], .del 2, .ingest 3 ["c"]] = [1, 2, 2] ∧
    (runOps corpus0 [.ingest 1 ["a"], .ingest 2 ["b"], .del 2]).documents.map (·.doc_id) = [1] :=
  ⟨by decide, by decide⟩

/-- C8, amended: the store assigns one more than the largest `doc_id`
currently present (1 for an empty store), so every new id strictly
exceeds all ids live at insertion time; ids are therefore strictly
increasing while nothing is deleted, but after deleting the document
with the largest id that id is handed out again. -/
theorem assigned_doc_id_exceeds_live (S : Corpus) (nlp : NlpDocContext) (i : ℕ)
    (h : addedId S nlp = some i) :
    i = nextId (S.documents.map (·.doc_id)) ∧ ∀ r ∈ S.documents, r.doc_id < i := by
  have hi : i = nextId (S.documents.map (·.doc_id)) := by
    simp only [addedId, add_document] at h
    split at h
    · simp [Except.toOption] at h
    · split at h
      · split at h
        · split at h
          · simp [Except.toOption] at h
          · split at h
            · simp [Except.toOption] at h
            · simp [Except.toOption] at h
              exact h.symm
        · simp [Except.toOption] at h
      · simp [Except.toOption] at h
  refine ⟨hi, ?_⟩
  intro r hr
  have : r.doc_id ≤ (S.documents.map (·.doc_id)).foldr max 0 :=
    le_foldr_max _ _ (List.mem_map.mpr ⟨r, hr, rfl⟩)
  have hn : nextId (S.documents.map (·.doc_id))
      = (S.documents.map (·.doc_id)).foldr max 0 + 1 := rfl
  omega

/-- C8, witness for the amended theorem: ingesting into the
one-document state `S1` returns id 2, strictly above the live id 1. -/
theorem assigned_doc_id_exceeds_live_witness :
    addedId S1 (mkCtx 2 ["b"]) = some 2 ∧
    (⟨1, 7, []⟩ : DocRow) ∈ S1.documents ∧ (⟨1, 7, []⟩ : DocRow).doc_id < 2 :=
  ⟨by decide, by decide,
    (assigned_doc_id_exceeds_live S1 (mkCtx 2 ["b"]) 2 (by decide)).2 ⟨1, 7, []⟩ (by decide)⟩

/-- C1: on an empty corpus `lemma_tfidf_map` returns the empty map for
every id; on a non-empty corpus, every lemma of the target document
with positive document frequency `df` is assigned the score
`tf * ln(N / df)`, and any lemma whose `df` resolves to 0 is absent
from the returned map. -/
theorem tfidf_scores_spec (S : Corpus) (d : ℕ) :
    (corpus_size S = 0 → lemma_tfidf_map S d = .ok []) ∧
    (corpus_size S ≠ 0 →
      ∀ res, lemma_tfidf_map S d = .ok res →
        (∀ l t, (l, t) ∈ lemmas_tf S d → 0 < df S l →
          (l, (t : ℝ) * Real.log ((corpus_size S : ℝ) / (df S l : ℝ))) ∈ res) ∧
        (∀ l, df S l = 0 → ∀ x : ℝ, (l, x) ∉ res)) := by
  constructor
  · intro h
    simp [lemma_tfidf_map, h]
  · intro hN res hres
    simp only [lemma_tfidf_map] at hres
    rw [if_neg hN] at hres
    by_cases hemp : lemmas_tf S d = []
    · rw [if_pos (by simp [hemp])] at hres
      cases hres
    · rw [if_neg (by simp [hemp])] at hres
      simp only [Except.ok.injEq] at hres
      subst hres
      constructor
      · intro l t hmem hdf
        refine List.mem_filterMap.mpr ⟨(l, t), hmem, ?_⟩
        show (if (alookup (lemmas_id_doccount_map S) l).getD 0 = 0 then none
              else some (l, ((t : ℚ) : ℝ) *
                Real.log ((corpus_size S : ℝ)
                  / (((alookup (lemmas_id_doccount_map S) l).getD 0 : ℕ) : ℝ)))) = _
        rw [getD_doccount]
        rw [if_neg (by omega)]
      · intro l hdf x hx
        obtain ⟨⟨la, ta⟩, hmema, heq⟩ := List.mem_filterMap.mp hx
        dsimp only at heq
        rw [getD_doccount] at heq
        split at heq
        · cases heq
        · rename_i hdc
          simp only [Option.some.injEq, Prod.mk.injEq] at heq
          exact hdc (by rw [heq.1]; exact hdf)

/-- C1, witness: the empty corpus yields an empty map; on the
one-document state `S1` the lemma 1 (tf 1, df 1) receives its
`tf * ln(N / df)` score, and a lemma with df 0 is absent. -/
theorem tfidf_scores_spec_witness :
    corpus_size corpus0 = 0 ∧ lemma_tfidf_map corpus0 5 = Except.ok [] ∧
    corpus_size S1 ≠ 0 ∧ lemma_tfidf_map S1 1 = Except.ok T1 ∧
    (1, (1 : ℚ)) ∈ lemmas_tf S1 1 ∧ 0 < df S1 1 ∧
    (1, ((1 : ℚ) : ℝ) * Real.log ((corpus_size S1 : ℝ) / (df S1 1 : ℝ))) ∈ T1 ∧
    df S1 42 = 0 ∧ (42, (0 : ℝ)) ∉ T1 := by
  refine ⟨rfl, (tfidf_scores_spec corpus0 5).1 rfl, by decide, rfl, by decide, by decide,
    ?_, by decide, ?_⟩
  · exact ((tfidf_scores_spec S1 1).2 (by decide) T1 rfl).1 1 1 (by decide) (by decide)
  · exact ((tfidf_scores_spec S1 1).2 (by decide) T1 rfl).2 42 (by decide) 0

/-- C4: every record of the report carries a positive document
frequency, and its `idf` field equals `ln(N / df)`; the defensive
`df = 0 ↦ idf = 0` fallback holds vacuously. -/
theorem lemma_report_idf_spec (S : Corpus) (d : ℕ) (res : List LemmaInfo) (e : LemmaInfo)
    (hres : document_lemmas_info S d = .ok res) (he : e ∈ res) :
    0 < df S e.lemma_id ∧
    (df S e.lemma_id ≠ 0 →
      e.idf = Real.log ((corpus_size S : ℝ) / (df S e.lemma_id : ℝ))) ∧
    (df S e.lemma_id = 0 → e.idf = 0) := by
  simp only [document_lemmas_info] at hres
  split at hres
  · simp only [Except.ok.injEq] at hres
    subst hres
    cases he
  · split at hres
    · cases hres
    · rename_i tfidfm htm
      simp only [Except.ok.injEq] at hres
      subst hres
      have he2 := (List.perm_insertionSort rTD _).mem_iff.mp he
      obtain ⟨l, hl, hel⟩ := List.mem_map.mp he2
      have hid : e.lemma_id = l := by rw [← hel]; rfl
      have hk : l ∈ (docRows S d).map (·.lemma_id) := by
        simpa [lemmas_count, List.map_map, Function.comp] using hl
      have hpos : 0 < df S l := df_pos_of_mem_keys S d l hk
      have hdfl : alookup (lemmas_id_doccount_map S) l = some (df S l) := by
        rw [alookup_doccount, if_neg (by omega)]
      have hidf : e.idf = Real.log ((corpus_size S : ℝ) / (df S l : ℝ)) := by
        rw [← hel]
        show (if (alookup (lemmas_id_doccount_map S) l).getD 1 ≠ 0
            then Real.log ((corpus_size S : ℝ)
              / (((alookup (lemmas_id_doccount_map S) l).getD 1 : ℕ) : ℝ))
            else 0) = _
        rw [hdfl]
        simp only [Option.getD_some]
        rw [if_pos (by omega)]
      rw [hid]
      exact ⟨hpos, fun _ => hidf, fun h0 => absurd h0 (by omega)⟩

/-- C4, witness: the single record of the report on `S1` has positive
df and `idf = ln(N / df)`. -/
theorem lemma_report_idf_spec_witness :
    document_lemmas_info S1 1 = Except.ok R1 ∧ R1.headI ∈ R1 ∧
    0 < df S1 R1.headI.lemma_id ∧
    R1.headI.idf = Real.log ((corpus_size S1 : ℝ) / (df S1 R1.headI.lemma_id : ℝ)) := by
  have hmem : R1.headI ∈ R1 := by
    rw [show R1 = [R1.headI] from rfl]
    exact List.mem_singleton_self _
  have h := lemma_report_idf_spec S1 1 R1 R1.headI rfl hmem
  exact ⟨rfl, hmem, h.1, h.2.1 (by omega)⟩

/-- C5: the report is the empty sequence on an empty corpus, and on a
state satisfying the bridge-table primary-key constraint its records
are pairwise ordered by strictly descending `tfidf` with ties broken
by strictly ascending `lemma_id`. -/
theorem lemma_report_sorted_spec (S : Corpus) (d : ℕ) :
    (corpus_size S = 0 → document_lemmas_info S d = .ok []) ∧
    (WFpk S → ∀ res, document_lemmas_info S d = .ok res → res.Pairwise ordC5) := by
  constructor
  · intro h
    simp [document_lemmas_info, h]
  · intro hwf res hres
    simp only [document_lemmas_info] at hres
    split at hres
    · simp only [Except.ok.injEq] at hres
      subst hres
      exact List.Pairwise.nil
    · split at hres
      · cases hres
      · rename_i tfidfm htm
        simp only [Except.ok.injEq] at hres
        subst hres
        apply ordC5_insertionSort
        rw [List.pairwise_map]
        have hfil : (S.documents_lemmas.filter (fun r => r.doc_id == d)).Pairwise
            (fun a b => a.lemma_id ≠ b.lemma_id) := by
          refine List.Pairwise.imp_of_mem ?_ (hwf.filter _)
          intro a b ha hb hab
          have had : a.doc_id = d := by simpa using (List.mem_filter.mp ha).2
          have hbd : b.doc_id = d := by simpa using (List.mem_filter.mp hb).2
          exact hab (had.trans hbd.symm)
        have hnd : ((docRows S d).map (·.lemma_id)).Nodup :=
          (((List.perm_insertionSort rLem
            (S.documents_lemmas.filter (fun r => r.doc_id == d))).symm).map _).nodup
            (List.pairwise_map.mpr hfil)
        have hlt : (docRows S d).Pairwise (fun a b => a.lemma_id < b.lemma_id) :=
          ((List.sorted_insertionSort rLem _).and (List.pairwise_map.mp hnd)).imp
            (fun hab => lt_of_le_of_ne hab.1 hab.2)
        have hmapeq : (lemmas_count S d).map Prod.fst = (docRows S d).map (·.lemma_id) := by
          simp [lemmas_count, List.map_map, Function.comp]
        have hkeys : ((lemmas_count S d).map Prod.fst).Pairwise (fun a b => a < b) := by
          rw [hmapeq]
          exact List.pairwise_map.mpr hlt
        exact hkeys

/-- C5, witness: empty corpus gives the empty report; `S1` satisfies
the primary-key constraint and its report is pairwise ordered. -/
theorem lemma_report_sorted_spec_witness :
    document_lemmas_info corpus0 4 = Except.ok [] ∧
    WFpk S1 ∧ document_lemmas_info S1 1 = Except.ok R1 ∧ R1.Pairwise ordC5 :=
  ⟨(lemma_report_sorted_spec corpus0 4).1 rfl, by decide, rfl,
    (lemma_report_sorted_spec S1 1).2 (by decide) R1 rfl⟩

/-- C9: deleting a document never touches the vocabulary — the
`lemmas` table after `del_document` is exactly the one before it, for
every state and every id (in particular when the deleted document was
the last reference to some lemma). -/
theorem delete_preserves_vocabulary (S : Corpus) (d : ℕ) :
    (del_document S d).lemmas = S.lemmas := rfl

/-- C10: `hash_original_text` stores the external digest masked to its
low 63 bits (hence a value below `2^63`) in the context, and returns
that very value unless the mask is exactly 0, in which case it returns
`None` while the stored field holds 0. -/
theorem hash_original_text_spec (xxh : String → ℕ) (nlp : NlpDocContext) :
    (hash_original_text xxh nlp).1.xxhash64 = some (xxh nlp.text_input % 2 ^ 63) ∧
    xxh nlp.text_input % 2 ^ 63 < 2 ^ 63 ∧
    (hash_original_text xxh nlp).2 =
      (if xxh nlp.text_input % 2 ^ 63 = 0 then none else some (xxh nlp.text_input % 2 ^ 63)) ∧
    ((hash_original_text xxh nlp).2 = none →
      (hash_original_text xxh nlp).1.xxhash64 = some 0) := by
  have hm : Nat.land (xxh nlp.text_input) (2 ^ 63 - 1) = xxh nlp.text_input % 2 ^ 63 :=
    land_two_pow_sub_one _ _
  have e1 : (hash_original_text xxh nlp).1.xxhash64
      = some (Nat.land (xxh nlp.text_input) (2 ^ 63 - 1)) := rfl
  have e2 : (hash_original_text xxh nlp).2
      = (if Nat.land (xxh nlp.text_input) (2 ^ 63 - 1) = 0 then none
         else some (Nat.land (xxh nlp.text_input) (2 ^ 63 - 1))) := rfl
  refine ⟨by rw [e1, hm], Nat.mod_lt _ (by norm_num), by rw [e2, hm], ?_⟩
  intro h
  rw [e2] at h
  rw [e1]
  split at h
  · rename_i h0
    rw [h0]
  · exact absurd h (by simp)

/-- C10, witness exercising the zero-fingerprint branch: a digest
function returning 0 makes the function return `None` while the
context field holds `some 0`. -/
theorem hash_original_text_spec_witness :
    (hash_original_text (fun _ => 0) { text_input := "" }).2 = none ∧
    (hash_original_text (fun _ => 0) { text_input := "" }).1.xxhash64 = some 0 :=
  ⟨rfl, (hash_original_text_spec (fun _ => 0) { text_input := "" }).2.2.2 rfl⟩

end LestaTfidf
